import Mathlib

/-!
Verification of the `danyeric123/redis-project` server (`src/app/main.py`)
against its natural-language specification.

The Python source is shallowly embedded below:

* strings are Lean `String`s (one Python character per `Char`);
* the Python `dict` is an association list in insertion order
  (`dictSet`, `dictGet`, `dictDel` model `d[k] = v`, `d.get(k)`, `del d[k]`);
* `re.split(r"\s+", data)` is `pySplitWs`, `str.lower()` is `pyLower`
  (ASCII case mapping), `int(str)` is `pyInt` (optional sign followed by
  decimal digits; numeric-literal underscores are not modelled, no claim
  uses them);
* a Python exception escaping a handler is `Option.none`; in
  `handle_client` such an exception is caught and ends the session
  (`Outcome.crashed`);
* `threading.Timer(expiration / 1000, self._clear_key, (key,))` becomes a
  pending entry `(fireTime, key)` in `SessionState.timers`; the callback
  running is an explicit trace event (`SessionEvent.timerFires`), legal at
  any time at or after `fireTime` — `threading.Timer` guarantees only a
  lower bound on when the callback runs;
* each received frame is one `SessionEvent.recv`; times are absolute
  milliseconds (`Int`).
-/

/-! ### Python string primitives -/

/-- One character of Python's `\s` class (ASCII part), used by
`re.split(r"\s+", data)`: space, tab, newline, carriage return,
vertical tab, form feed. -/
def isWs (c : Char) : Bool :=
  c.toNat == 32 || c.toNat == 9 || c.toNat == 10 ||
  c.toNat == 13 || c.toNat == 11 || c.toNat == 12

/-- ASCII case mapping of Python's `str.lower` on one character. -/
def pyLowerChar (c : Char) : Char :=
  if 65 ≤ c.toNat ∧ c.toNat ≤ 90 then Char.ofNat (c.toNat + 32) else c

/-- Python's `str.lower()` (ASCII fragment). -/
def pyLower (s : String) : String := ⟨s.data.map pyLowerChar⟩

/-- Does the list start with a whitespace character? -/
def headIsWs : List Char → Bool
  | [] => false
  | c :: _ => isWs c

/-- Worker for `pySplitWs`, right to left: a maximal nonempty whitespace
run is one boundary (handled at the run's last character; earlier
characters of the run change nothing), every other character extends the
current piece.  This computes exactly `re.split(r"\s+", ...)`. -/
def splitWs : List Char → List String
  | [] => [""]
  | c :: rest =>
    let r := splitWs rest
    if isWs c then
      if headIsWs rest then r else "" :: r
    else
      match r with
      | [] => [⟨[c]⟩]
      | p :: ps => ⟨c :: p.data⟩ :: ps

/-- Python's `re.split(r"\s+", data)`: note that leading (resp. trailing)
whitespace yields an empty first (resp. last) piece. -/
def pySplitWs (s : String) : List String := splitWs s.data

/-- Every second element of a list, starting with the first: the tail of a
Python slice `l[::2]`.  `everyOther (l.drop 4)` is `l[4::2]`. -/
def everyOther : List α → List α
  | [] => []
  | [x] => [x]
  | x :: _ :: rest => x :: everyOther rest

/-- Decimal digit run to a number; `none` when empty or a non-digit occurs. -/
def digitsToNat (l : List Char) : Option Nat :=
  if l ≠ [] ∧ l.all Char.isDigit then
    some (l.foldl (fun a c => a * 10 + (c.toNat - 48)) 0)
  else none

/-- Python's `int(s)` on the token strings reaching it here: an optional
sign followed by decimal digits; anything else raises `ValueError`
(`none`). -/
def pyInt (s : String) : Option Int :=
  match s.data with
  | '-' :: rest => (digitsToNat rest).map (fun n => -(n : Int))
  | '+' :: rest => (digitsToNat rest).map (fun n => (n : Int))
  | l => (digitsToNat l).map (fun n => (n : Int))

/-! ### Python `dict` as an insertion-ordered association list -/

/-- `d[k] = v`: overwrite in place if the key is present, else append. -/
def dictSet (d : List (String × α)) (k : String) (v : α) : List (String × α) :=
  if d.any (fun p => p.1 == k) then
    d.map (fun p => if p.1 == k then (k, v) else p)
  else d ++ [(k, v)]

/-- `d.get(k)`: first (unique) binding of `k`, if any. -/
def dictGet (d : List (String × α)) (k : String) : Option α :=
  (d.find? (fun p => p.1 == k)).map (fun p => p.2)

/-- `del d[k]` after the key was checked present. -/
def dictDel (d : List (String × α)) (k : String) : List (String × α) :=
  d.filter (fun p => !(p.1 == k))

/-! ### The server (`class RedisServer`) -/

/-- The per-connection state of one `RedisServer` object:
`self.storage` (`dict[str, str]`), `self._config` (a `dict` whose `dir` /
`dbfilename` values may be Python `None`), and the pending
`threading.Timer`s started by `set`, as `(absolute fire time, key)`. -/
structure SessionState where
  storage : List (String × String)
  config : List (String × Option String)
  timers : List (Int × String)
deriving DecidableEq, Repr

namespace RedisServer

/-- `RedisServer.__init__`: fresh empty storage, config seeded with the
startup parameters (in the source's insertion order), no timers.  Note the
dicts are created anew for every connection. -/
def init (dbfilename directory : Option String) : SessionState :=
  { storage := [], config := [("dir", directory), ("dbfilename", dbfilename)], timers := [] }

/-- `RedisServer.set`: reads `args[0]`, `args[1]` (IndexError = `none`),
optionally parses a TTL when `len(args) > 2 and args[2] == "px"`
(then `int(args[3])` may raise), stores the value, and schedules a
deferred deletion `now + expiration` when a TTL was given.
Reply: `+OK\r\n`. -/
def set (now : Int) (args : List String) (st : SessionState) :
    Option (SessionState × String) :=
  match args.get? 0, args.get? 1 with
  | some key, some value =>
    let expirationRes : Option (Option Int) :=
      if args.length > 2 then
        if args.get? 2 = some "px" then
          match args.get? 3 with
          | none => none
          | some t =>
            match pyInt t with
            | none => none
            | some n => some (some n)
        else some none
      else some none
    match expirationRes with
    | none => none
    | some expiration =>
      let st1 := { st with storage := dictSet st.storage key value }
      let st2 :=
        match expiration with
        | some e => { st1 with timers := st1.timers ++ [(now + e, key)] }
        | none => st1
      some (st2, "+OK\r\n")
  | _, _ => none

/-- `RedisServer._clear_key`: `del self.storage[key]`, unconditional;
`none` models the `KeyError` raised when the key is already gone. -/
def clear_key (storage : List (String × String)) (key : String) :
    Option (List (String × String)) :=
  if (dictGet storage key).isSome then some (dictDel storage key) else none

/-- `RedisServer.get`: `self.storage.get(key)`; no expiration check of any
kind — the reply depends only on dict membership. -/
def get (args : List String) (st : SessionState) : Option (SessionState × String) :=
  match args.get? 0 with
  | none => none
  | some key =>
    some (st,
      match dictGet st.storage key with
      | none => "$-1\r\n"
      | some value => "$" ++ Nat.repr value.length ++ "\r\n" ++ value ++ "\r\n")

/-- `RedisServer.ping`. -/
def ping (_args : List String) (st : SessionState) : Option (SessionState × String) :=
  some (st, "+PONG\r\n")

/-- `RedisServer.echo`: `args[0]` (IndexError = `none`), replied as
`+{message}\r\n`. -/
def echo (args : List String) (st : SessionState) : Option (SessionState × String) :=
  match args.get? 0 with
  | none => none
  | some m => some (st, "+" ++ m ++ "\r\n")

/-- `RedisServer.config_get`: `self._config.get(parameter)`; both a missing
key and a stored Python `None` yield the nil bulk string. -/
def config_get (st : SessionState) (parameter : String) : String :=
  match dictGet st.config parameter with
  | none => "$-1\r\n"
  | some none => "$-1\r\n"
  | some (some value) =>
    "*2\r\n" ++ ("$" ++ Nat.repr parameter.length ++ "\r\n" ++ parameter ++ "\r\n") ++
      ("$" ++ Nat.repr value.length ++ "\r\n" ++ value ++ "\r\n")

/-- `RedisServer.config_set`. -/
def config_set (st : SessionState) (parameter value : String) :
    SessionState × String :=
  ({ st with config := dictSet st.config parameter (some value) }, "+OK\r\n")

/-- `RedisServer.config`: two-level dispatch on `args[0]`
(IndexError = `none`), reading `args[1]` / `args[2]` as needed. -/
def config (args : List String) (st : SessionState) : Option (SessionState × String) :=
  match args.get? 0 with
  | none => none
  | some sub =>
    if sub = "get" then
      match args.get? 1 with
      | none => none
      | some p => some (st, config_get st p)
    else if sub = "set" then
      match args.get? 1, args.get? 2 with
      | some p, some v => some (config_set st p v)
      | _, _ => none
    else some (st, "-ERR unknown subcommand\r\n")

/-- `RedisServer.handle_unknown`. -/
def handle_unknown (_args : List String) (st : SessionState) :
    Option (SessionState × String) :=
  some (st, "-ERR unknown command\r\n")

/-- `RedisServer.parse_command`: split on whitespace, `parts[2].lower()` as
the command (IndexError = `none` when fewer than 3 tokens), `parts[4::2]`
as the arguments. -/
def parse_command (data : String) : Option (String × List String) :=
  let parts := pySplitWs data
  match parts.get? 2 with
  | none => none
  | some t => some (pyLower t, everyOther (parts.drop 4))

/-- `self.command_dispatch.get(command, self.handle_unknown)` applied to
the arguments. -/
def dispatch (now : Int) (command : String) (args : List String)
    (st : SessionState) : Option (SessionState × String) :=
  if command = "ping" then ping args st
  else if command = "echo" then echo args st
  else if command = "set" then set now args st
  else if command = "get" then get args st
  else if command = "config" then config args st
  else handle_unknown args st

/-- `RedisServer.handle_command`. -/
def handle_command (now : Int) (raw : String) (st : SessionState) :
    Option (SessionState × String) :=
  match parse_command raw with
  | none => none
  | some (command, args) => dispatch now command args st

/-- One iteration of `RedisServer.run` on a received frame:
`self.handle_command(data.decode().lower())` — the whole frame is
lowercased before parsing. -/
def processFrame (now : Int) (data : String) (st : SessionState) :
    Option (SessionState × String) :=
  handle_command now (pyLower data) st

end RedisServer

/-! ### One connection as a trace of events -/

/-- An externally visible event of one session: the socket delivering a
frame, or a pending `threading.Timer` callback running. -/
inductive SessionEvent where
  | recv (time : Int) (data : String)
  | timerFires (time : Int) (idx : Nat)
deriving DecidableEq, Repr

/-- Session state together with the current time and the replies written
so far. -/
structure TraceState where
  sess : SessionState
  time : Int
  outputs : List String
deriving DecidableEq, Repr

/-- Result of running a trace: still alive, terminated by an uncaught
exception (caught by `handle_client`, which only logs and closes), or a
trace that is not schedulable (time going backwards, a timer firing
before its delay elapsed, a missing timer, an empty read). -/
inductive Outcome where
  | ok (ts : TraceState)
  | crashed (ts : TraceState)
  | invalid
deriving DecidableEq, Repr

/-- One event.  A timer may fire at any time at or after its scheduled
time; firing removes it from the pending list and runs `_clear_key`, whose
`KeyError` (if the key is already gone) dies inside the timer thread
without affecting the session. -/
def stepEvent (ts : TraceState) : SessionEvent → Outcome
  | .recv t data =>
    if t < ts.time ∨ data = "" then .invalid
    else
      match RedisServer.processFrame t data ts.sess with
      | none => .crashed { ts with time := t }
      | some (st', out) =>
        .ok { sess := st', time := t, outputs := ts.outputs ++ [out] }
  | .timerFires t i =>
    if t < ts.time then .invalid
    else
      match ts.sess.timers.get? i with
      | none => .invalid
      | some (ft, key) =>
        if t < ft then .invalid
        else
          let storage2 :=
            match RedisServer.clear_key ts.sess.storage key with
            | some s => s
            | none => ts.sess.storage
          let sess2 : SessionState :=
            { storage := storage2, config := ts.sess.config,
              timers := ts.sess.timers.eraseIdx i }
          .ok { sess := sess2, time := t, outputs := ts.outputs }

/-- Run a list of events; a crash or an unschedulable event stops the
trace. -/
def runTrace (ts : TraceState) : List SessionEvent → Outcome
  | [] => .ok ts
  | e :: rest =>
    match stepEvent ts e with
    | .ok ts' => runTrace ts' rest
    | r => r

/-- `handle_client`: construct a fresh `RedisServer` — fresh `storage` and
`_config` dicts — for this one connection and run its loop; nothing is
shared with any other call. -/
def handle_client (dbfilename directory : Option String)
    (events : List SessionEvent) : Outcome :=
  runTrace { sess := RedisServer.init dbfilename directory, time := 0, outputs := [] } events

/-- A session that only receives frames (no timer ever fires), on a server
started without `--dir`/`--dbfilename`. -/
def runFrames (frames : List String) : Outcome :=
  handle_client none none (frames.map (SessionEvent.recv 0))

/-! ### The client side: well-formed frames and reply encodings -/

/-- `$<len>\r\n<arg>\r\n` token pair for each argument, as tokens. -/
def bulkToks : List String → List String
  | [] => []
  | a :: rest => ("$" ++ Nat.repr a.length) :: a :: bulkToks rest

/-- The token stream of a well-formed frame `*<argc>` then the
length-prefixed arguments. -/
def wireTokens (args : List String) : List String :=
  ("*" ++ Nat.repr args.length) :: bulkToks args

/-- CRLF-terminate and concatenate tokens, at the character level. -/
def joinCRLF : List String → List Char
  | [] => []
  | t :: rest => t.data ++ '\r' :: '\n' :: joinCRLF rest

/-- The frame a client sends for the command word plus arguments `args`:
`*<argc>\r\n($<len>\r\n<arg>\r\n)+`. -/
def mkFrame (args : List String) : String := ⟨joinCRLF (wireTokens args)⟩

/-- Reply encodings of §4.2 of the spec, used to state the claims. -/
def encodeSimpleString (s : String) : String := "+" ++ s ++ "\r\n"

/-- `BulkString(s)` on the wire. -/
def encodeBulkString (s : String) : String :=
  "$" ++ Nat.repr s.length ++ "\r\n" ++ s ++ "\r\n"

/-- `BulkString(nil)` on the wire. -/
def encodeBulkNil : String := "$-1\r\n"

/-- `Error(msg)` on the wire. -/
def encodeError (m : String) : String := "-" ++ m ++ "\r\n"

/-- `Array([a, b])` on the wire: header then each item's bulk encoding. -/
def encodeArray2 (a b : String) : String :=
  "*2\r\n" ++ encodeBulkString a ++ encodeBulkString b

/-- A string with no Python whitespace character. -/
def wsFree (s : String) : Bool := s.data.all (fun c => !isWs c)

/-- A string with no ASCII uppercase character. -/
def noUpper (s : String) : Bool :=
  s.data.all (fun c => !(65 ≤ c.toNat && c.toNat ≤ 90))

/-- Nonempty and whitespace-free: the condition under which a token
survives the whitespace-based decoder intact. -/
def goodToken (t : String) : Prop :=
  t.data ≠ [] ∧ ∀ c ∈ t.data, isWs c = false

instance (t : String) : Decidable (goodToken t) := by
  unfold goodToken
  infer_instance

/-! ### Character-level lemmas -/

lemma char_ofNat_add32 (n : Nat) (h1 : 65 ≤ n) (h2 : n ≤ 90) :
    (Char.ofNat (n + 32)).toNat = n + 32 := by
  interval_cases n <;> decide

lemma isWs_eq_false_iff (c : Char) :
    isWs c = false ↔
      c.toNat ≠ 32 ∧ c.toNat ≠ 9 ∧ c.toNat ≠ 10 ∧
      c.toNat ≠ 13 ∧ c.toNat ≠ 11 ∧ c.toNat ≠ 12 := by
  simp [isWs, and_assoc]

lemma isWs_pyLowerChar (c : Char) : isWs (pyLowerChar c) = isWs c := by
  unfold pyLowerChar
  split
  · rename_i h
    have hval := char_ofNat_add32 c.toNat h.1 h.2
    rw [(isWs_eq_false_iff _).2 (by omega), (isWs_eq_false_iff _).2 (by omega)]
  · rfl

lemma pyLowerChar_not_upper (c : Char) :
    ((65 ≤ (pyLowerChar c).toNat ∧ (pyLowerChar c).toNat ≤ 90) → False) := by
  unfold pyLowerChar
  split
  · rename_i h
    have hval := char_ofNat_add32 c.toNat h.1 h.2
    omega
  · rename_i h
    intro hc
    exact h hc

lemma digitChar_props (m : Nat) :
    isWs (Nat.digitChar m) = false ∧ pyLowerChar (Nat.digitChar m) = Nat.digitChar m := by
  match m with
  | 0 | 1 | 2 | 3 | 4 | 5 | 6 | 7 | 8 | 9 | 10 | 11 | 12 | 13 | 14 | 15 => exact ⟨by decide, by decide⟩
  | n + 16 =>
    simp only [Nat.digitChar]
    repeat rw [if_neg (by omega)]
    exact ⟨by decide, by decide⟩

lemma toDigitsCore_props (b : Nat) :
    ∀ (fuel n : Nat) (ds : List Char),
      (∀ c ∈ ds, isWs c = false ∧ pyLowerChar c = c) →
      ∀ c ∈ Nat.toDigitsCore b fuel n ds, isWs c = false ∧ pyLowerChar c = c := by
  intro fuel
  induction fuel with
  | zero => intro n ds hds; simpa [Nat.toDigitsCore] using hds
  | succ fuel ih =>
    intro n ds hds c hc
    rw [Nat.toDigitsCore] at hc
    by_cases hz : n / b = 0
    · rw [if_pos hz] at hc
      rcases List.mem_cons.1 hc with hc | hc
      · exact hc ▸ digitChar_props _
      · exact hds c hc
    · rw [if_neg hz] at hc
      refine ih (n / b) _ ?_ c hc
      intro c' hc'
      rcases List.mem_cons.1 hc' with hc' | hc'
      · exact hc' ▸ digitChar_props _
      · exact hds c' hc'

lemma toDigitsCore_length_le (b : Nat) :
    ∀ (fuel n : Nat) (ds : List Char),
      ds.length ≤ (Nat.toDigitsCore b fuel n ds).length := by
  intro fuel
  induction fuel with
  | zero => intro n ds; simp [Nat.toDigitsCore]
  | succ fuel ih =>
    intro n ds
    rw [Nat.toDigitsCore]
    by_cases hz : n / b = 0
    · rw [if_pos hz]; simp
    · rw [if_neg hz]
      calc ds.length ≤ (Nat.digitChar (n % b) :: ds).length := by simp
        _ ≤ _ := ih (n / b) _

lemma repr_data (n : Nat) :
    (Nat.repr n).data = Nat.toDigitsCore 10 (n + 1) n [] := rfl

lemma repr_data_ne_nil (n : Nat) : (Nat.repr n).data ≠ [] := by
  rw [repr_data, Nat.toDigitsCore]
  by_cases hz : n / 10 = 0
  · rw [if_pos hz]; simp
  · rw [if_neg hz]
    intro h
    have := toDigitsCore_length_le 10 n (n / 10) [Nat.digitChar (n % 10)]
    rw [h] at this
    simp at this

lemma repr_chars (n : Nat) :
    ∀ c ∈ (Nat.repr n).data, isWs c = false ∧ pyLowerChar c = c := by
  rw [repr_data]
  exact toDigitsCore_props 10 (n + 1) n [] (by simp)

lemma string_data_append (a b : String) : (a ++ b).data = a.data ++ b.data := rfl

lemma pyLower_data (s : String) : (pyLower s).data = s.data.map pyLowerChar := rfl

lemma pyLower_length (s : String) : (pyLower s).length = s.length := by
  show (s.data.map pyLowerChar).length = s.data.length
  exact List.length_map _ _

lemma pyLower_fix (s : String) (h : ∀ c ∈ s.data, pyLowerChar c = c) :
    pyLower s = s := by
  have hmap : s.data.map pyLowerChar = s.data := by
    conv_rhs => rw [← List.map_id s.data]
    exact List.map_congr_left h
  show (⟨s.data.map pyLowerChar⟩ : String) = s
  rw [hmap]

/-! ### Lemmas about the whitespace tokenizer -/

lemma isWs_cr : isWs '\r' = true := by decide

lemma isWs_lf : isWs '\n' = true := by decide

lemma splitWs_cons (c : Char) (l : List Char) :
    splitWs (c :: l) =
      if isWs c then (if headIsWs l then splitWs l else "" :: splitWs l)
      else
        match splitWs l with
        | [] => [⟨[c]⟩]
        | p :: ps => ⟨c :: p.data⟩ :: ps := rfl

lemma splitWs_ne_nil : ∀ l : List Char, splitWs l ≠ [] := by
  intro l
  induction l with
  | nil => simp [splitWs]
  | cons c rest ih =>
    rw [splitWs_cons]
    by_cases hws : isWs c
    · rw [if_pos hws]
      by_cases hh : headIsWs rest
      · rw [if_pos hh]; exact ih
      · rw [if_neg hh]; simp
    · rw [if_neg hws]
      cases h : splitWs rest with
      | nil => simp
      | cons p ps => simp

lemma splitWs_cons_nonws (c : Char) (hc : isWs c = false) (l : List Char)
    (p : String) (ps : List String) (h : splitWs l = p :: ps) :
    splitWs (c :: l) = ⟨c :: p.data⟩ :: ps := by
  rw [splitWs_cons, if_neg (by simp [hc]), h]

lemma splitWs_append_nonws (t : List Char) (ht : ∀ c ∈ t, isWs c = false)
    (l : List Char) (p : String) (ps : List String) (h : splitWs l = p :: ps) :
    splitWs (t ++ l) = ⟨t ++ p.data⟩ :: ps := by
  induction t with
  | nil =>
    rw [List.nil_append, h, List.nil_append]
  | cons c t ih =>
    have hc := ht c (by simp)
    have ih2 := ih (fun c hmem => ht c (by simp [hmem]))
    rw [List.cons_append, splitWs_cons_nonws c hc _ _ _ ih2]
    rfl

lemma splitWs_crlf (l : List Char) (h : headIsWs l = false) :
    splitWs ('\r' :: '\n' :: l) = "" :: splitWs l := by
  rw [splitWs_cons, if_pos (by rw [isWs_cr]),
    if_pos (by simp [headIsWs, isWs_lf]),
    splitWs_cons, if_pos (by rw [isWs_lf]), if_neg (by simp [h])]

lemma headIsWs_joinCRLF (toks : List String)
    (h : ∀ t ∈ toks, t.data ≠ [] ∧ ∀ c ∈ t.data, isWs c = false) :
    headIsWs (joinCRLF toks) = false := by
  cases toks with
  | nil => rfl
  | cons t rest =>
    obtain ⟨hne, hch⟩ := h t (by simp)
    cases hd : t.data with
    | nil => exact absurd hd hne
    | cons c cs =>
      have : joinCRLF (t :: rest) = c :: (cs ++ '\r' :: '\n' :: joinCRLF rest) := by
        simp [joinCRLF, hd]
      rw [this, headIsWs]
      exact hch c (by rw [hd]; simp)

lemma splitWs_joinCRLF (toks : List String)
    (h : ∀ t ∈ toks, t.data ≠ [] ∧ ∀ c ∈ t.data, isWs c = false) :
    splitWs (joinCRLF toks) = toks ++ [""] := by
  induction toks with
  | nil => rfl
  | cons t rest ih =>
    have hrest : ∀ u ∈ rest, u.data ≠ [] ∧ ∀ c ∈ u.data, isWs c = false :=
      fun u hu => h u (by simp [hu])
    have hcrlf := splitWs_crlf (joinCRLF rest) (headIsWs_joinCRLF rest hrest)
    rw [ih hrest] at hcrlf
    have happ := splitWs_append_nonws t.data (h t (by simp)).2
      ('\r' :: '\n' :: joinCRLF rest) "" (rest ++ [""]) hcrlf
    show splitWs (t.data ++ '\r' :: '\n' :: joinCRLF rest) = t :: (rest ++ [""])
    rw [happ]
    have hd : (⟨t.data ++ "".data⟩ : String) = t := by
      show (⟨t.data ++ []⟩ : String) = t
      rw [List.append_nil]
    rw [hd]

lemma splitWs_map_lower (l : List Char) :
    splitWs (l.map pyLowerChar) = (splitWs l).map pyLower := by
  induction l with
  | nil => rfl
  | cons c rest ih =>
    have hhead : headIsWs (rest.map pyLowerChar) = headIsWs rest := by
      cases rest with
      | nil => rfl
      | cons d _ => simp [headIsWs, isWs_pyLowerChar]
    rw [List.map_cons, splitWs_cons, splitWs_cons, isWs_pyLowerChar]
    by_cases hws : isWs c
    · rw [if_pos hws, if_pos hws, hhead]
      by_cases hh : headIsWs rest
      · rw [if_pos hh, if_pos hh, ih]
      · rw [if_neg hh, if_neg hh, ih]
        rfl
    · rw [if_neg hws, if_neg hws]
      cases hr : splitWs rest with
      | nil => exact absurd hr (splitWs_ne_nil rest)
      | cons p ps =>
        rw [hr] at ih
        rw [ih]
        simp only [List.map_cons]
        rfl

/-! ### Lemmas about the argument slice `parts[4::2]` -/

lemma everyOther_get? : ∀ (l : List α) (j : Nat),
    (everyOther l).get? j = l.get? (2 * j)
  | [], j => by simp [everyOther]
  | [x], j => by
    cases j with
    | zero => rfl
    | succ j => simp [everyOther, Nat.mul_succ]
  | x :: y :: rest, j => by
    cases j with
    | zero => rfl
    | succ j =>
      have ih := everyOther_get? rest j
      simp only [everyOther, Nat.mul_succ]
      show (everyOther rest).get? j = (x :: y :: rest).get? (2 * j + 2)
      rw [ih]
      rfl

lemma everyOther_bulkToks : ∀ (rest : List String) (a : String),
    everyOther (a :: (bulkToks rest ++ [""])) = a :: rest
  | [], a => by simp [bulkToks, everyOther]
  | b :: rest, a => by
    have ih := everyOther_bulkToks rest b
    simp only [bulkToks, List.cons_append]
    show everyOther (a :: ("$" ++ Nat.repr b.length) :: (b :: (bulkToks rest ++ [""]))) =
      a :: b :: rest
    rw [everyOther, ih]

/-! ### Well-formed frames and their parse -/

lemma goodToken_dollar_repr (n : Nat) : goodToken ("$" ++ Nat.repr n) := by
  constructor
  · rw [string_data_append]; simp
  · intro c hc
    rw [string_data_append] at hc
    rcases List.mem_append.1 hc with hc | hc
    · simp only [List.mem_singleton.1 hc]
      decide
    · exact (repr_chars n c hc).1

lemma goodToken_star_repr (n : Nat) : goodToken ("*" ++ Nat.repr n) := by
  constructor
  · rw [string_data_append]; simp
  · intro c hc
    rw [string_data_append] at hc
    rcases List.mem_append.1 hc with hc | hc
    · simp only [List.mem_singleton.1 hc]
      decide
    · exact (repr_chars n c hc).1

lemma bulkToks_good (args : List String) (h : ∀ a ∈ args, goodToken a) :
    ∀ t ∈ bulkToks args, goodToken t := by
  induction args with
  | nil => simp [bulkToks]
  | cons a rest ih =>
    intro t ht
    simp only [bulkToks] at ht
    rcases List.mem_cons.1 ht with ht | ht
    · exact ht ▸ goodToken_dollar_repr a.length
    · rcases List.mem_cons.1 ht with ht | ht
      · exact ht ▸ h a (by simp)
      · exact ih (fun a ha => h a (by simp [ha])) t ht

lemma wireTokens_good (args : List String) (h : ∀ a ∈ args, goodToken a) :
    ∀ t ∈ wireTokens args, goodToken t := by
  intro t ht
  rcases List.mem_cons.1 ht with ht | ht
  · exact ht ▸ goodToken_star_repr args.length
  · exact bulkToks_good args h t ht

lemma pySplitWs_mkFrame (args : List String) (h : ∀ a ∈ args, goodToken a) :
    pySplitWs (mkFrame args) = wireTokens args ++ [""] :=
  splitWs_joinCRLF (wireTokens args) (wireTokens_good args h)

/-- A well-formed frame parses to its command token (lower-cased) and its
argument tokens. -/
lemma parse_command_mkFrame (c : String) (args : List String)
    (h : ∀ t ∈ c :: args, goodToken t) :
    RedisServer.parse_command (mkFrame (c :: args)) = some (pyLower c, args) := by
  unfold RedisServer.parse_command
  rw [pySplitWs_mkFrame (c :: args) h]
  show (match (wireTokens (c :: args) ++ [""]).get? 2 with
    | none => none
    | some t => some (pyLower t, everyOther ((wireTokens (c :: args) ++ [""]).drop 4))) =
    some (pyLower c, args)
  have htoks : wireTokens (c :: args) ++ [""] =
      ("*" ++ Nat.repr (c :: args).length) :: ("$" ++ Nat.repr c.length) :: c ::
        (bulkToks args ++ [""]) := by
    simp [wireTokens, bulkToks]
  rw [htoks]
  have hget : (("*" ++ Nat.repr (c :: args).length) :: ("$" ++ Nat.repr c.length) :: c ::
      (bulkToks args ++ [""])).get? 2 = some c := rfl
  rw [hget]
  have hdrop : (("*" ++ Nat.repr (c :: args).length) :: ("$" ++ Nat.repr c.length) :: c ::
      (bulkToks args ++ [""])).drop 4 = (bulkToks args ++ [""]).drop 1 := rfl
  rw [hdrop]
  cases args with
  | nil => rfl
  | cons a rest =>
    have : (bulkToks (a :: rest) ++ [""]).drop 1 = a :: (bulkToks rest ++ [""]) := by
      simp [bulkToks]
    rw [this, everyOther_bulkToks]

lemma pyLowerChar_cr : pyLowerChar '\r' = '\r' := by decide

lemma pyLowerChar_lf : pyLowerChar '\n' = '\n' := by decide

lemma joinCRLF_map_lower (toks : List String) :
    (joinCRLF toks).map pyLowerChar = joinCRLF (toks.map pyLower) := by
  induction toks with
  | nil => rfl
  | cons t rest ih =>
    simp only [joinCRLF, List.map_cons, List.map_append]
    rw [ih, pyLowerChar_cr, pyLowerChar_lf]
    rfl

lemma pyLower_dollar_repr (n : Nat) : pyLower ("$" ++ Nat.repr n) = "$" ++ Nat.repr n := by
  apply pyLower_fix
  intro c hc
  rw [string_data_append] at hc
  rcases List.mem_append.1 hc with hc | hc
  · simp only [List.mem_singleton.1 hc]
    decide
  · exact (repr_chars n c hc).2

lemma pyLower_star_repr (n : Nat) : pyLower ("*" ++ Nat.repr n) = "*" ++ Nat.repr n := by
  apply pyLower_fix
  intro c hc
  rw [string_data_append] at hc
  rcases List.mem_append.1 hc with hc | hc
  · simp only [List.mem_singleton.1 hc]
    decide
  · exact (repr_chars n c hc).2

lemma bulkToks_map_lower (args : List String) :
    (bulkToks args).map pyLower = bulkToks (args.map pyLower) := by
  induction args with
  | nil => rfl
  | cons a rest ih =>
    simp only [bulkToks, List.map_cons]
    rw [ih, pyLower_dollar_repr, pyLower_length]

lemma wireTokens_map_lower (args : List String) :
    (wireTokens args).map pyLower = wireTokens (args.map pyLower) := by
  simp only [wireTokens, List.map_cons]
  rw [bulkToks_map_lower, pyLower_star_repr, List.length_map]

/-- Lowercasing an entire well-formed frame (as `run` does before parsing)
is lowercasing each of its tokens. -/
lemma pyLower_mkFrame (args : List String) :
    pyLower (mkFrame args) = mkFrame (args.map pyLower) := by
  show (⟨(joinCRLF (wireTokens args)).map pyLowerChar⟩ : String) =
    ⟨joinCRLF (wireTokens (args.map pyLower))⟩
  rw [joinCRLF_map_lower, wireTokens_map_lower]

lemma goodToken_pyLower (t : String) (h : goodToken t) : goodToken (pyLower t) := by
  obtain ⟨hne, hch⟩ := h
  constructor
  · rw [pyLower_data]
    simpa using hne
  · intro c hc
    rw [pyLower_data] at hc
    obtain ⟨c0, hc0, rfl⟩ := List.mem_map.1 hc
    rw [isWs_pyLowerChar]
    exact hch c0 hc0

/-- The whole per-frame pipeline of `RedisServer.run` on a well-formed
frame: lowercase, parse, dispatch. -/
lemma processFrame_mkFrame (now : Int) (c : String) (args : List String)
    (st : SessionState) (h : ∀ t ∈ c :: args, goodToken t) :
    RedisServer.processFrame now (mkFrame (c :: args)) st =
      RedisServer.dispatch now (pyLower (pyLower c)) (args.map pyLower) st := by
  unfold RedisServer.processFrame RedisServer.handle_command
  rw [pyLower_mkFrame]
  have hgood : ∀ t ∈ pyLower c :: (args.map pyLower), goodToken t := by
    intro t ht
    rcases List.mem_cons.1 ht with ht | ht
    · exact ht ▸ goodToken_pyLower c (h c (by simp))
    · obtain ⟨t0, ht0, rfl⟩ := List.mem_map.1 ht
      exact goodToken_pyLower t0 (h t0 (by simp [ht0]))
  rw [show (c :: args).map pyLower = pyLower c :: args.map pyLower from rfl,
    parse_command_mkFrame (pyLower c) (args.map pyLower) hgood]

/-! ### Lemmas about the `dict` model -/

lemma dictGet_dictSet (d : List (String × α)) (k : String) (v : α) :
    dictGet (dictSet d k v) k = some v := by
  unfold dictSet
  by_cases h : d.any (fun p => p.1 == k)
  · rw [if_pos h]
    induction d with
    | nil => simp at h
    | cons p d ih =>
      by_cases hp : p.1 == k
      · unfold dictGet
        simp only [List.map_cons, if_pos hp]
        rw [List.find?_cons_of_pos _ (by simp)]
        rfl
      · have hd : d.any (fun p => p.1 == k) := by
          simp only [List.any_cons, hp] at h
          simpa using h
        unfold dictGet
        simp only [List.map_cons, if_neg hp]
        rw [List.find?_cons_of_neg _ (by simpa using hp)]
        exact ih hd
  · rw [if_neg h]
    unfold dictGet
    rw [List.find?_append]
    have hnone : d.find? (fun p => p.1 == k) = none := by
      rw [List.find?_eq_none]
      intro p hp
      simp only [List.any_eq_true, not_exists, not_and] at h
      intro hk
      exact absurd hk (by simpa using h p hp)
    rw [hnone]
    simp

lemma dictGet_nil (k : String) : dictGet ([] : List (String × α)) k = none := rfl

lemma mem_dictSet (d : List (String × α)) (k : String) (v : α) (p : String × α)
    (hp : p ∈ dictSet d k v) : p = (k, v) ∨ p ∈ d := by
  unfold dictSet at hp
  by_cases h : d.any (fun p => p.1 == k)
  · rw [if_pos h] at hp
    obtain ⟨q, hq, hpq⟩ := List.mem_map.1 hp
    by_cases hqk : q.1 == k
    · rw [if_pos hqk] at hpq
      exact Or.inl hpq.symm
    · rw [if_neg hqk] at hpq
      exact Or.inr (hpq ▸ hq)
  · rw [if_neg h] at hp
    rcases List.mem_append.1 hp with hp | hp
    · exact Or.inr hp
    · exact Or.inl (List.mem_singleton.1 hp)

/-! ### Step lemmas for session traces -/

lemma joinCRLF_wireTokens_ne_nil (args : List String) :
    joinCRLF (wireTokens args) ≠ [] := by
  show ("*" ++ Nat.repr args.length).data ++ '\r' :: '\n' :: joinCRLF (bulkToks args) ≠ []
  simp

lemma mkFrame_ne_empty (args : List String) : mkFrame args ≠ "" := by
  intro h
  have hdata : (mkFrame args).data = [] := by rw [h]
  exact joinCRLF_wireTokens_ne_nil args hdata

lemma stepEvent_recv (ts : TraceState) (t : Int) (data : String) :
    stepEvent ts (.recv t data) =
      if t < ts.time ∨ data = "" then .invalid
      else
        match RedisServer.processFrame t data ts.sess with
        | none => .crashed ⟨ts.sess, t, ts.outputs⟩
        | some (st2, out) => .ok ⟨st2, t, ts.outputs ++ [out]⟩ := rfl

lemma stepEvent_timer (ts : TraceState) (t : Int) (i : Nat) :
    stepEvent ts (.timerFires t i) =
      if t < ts.time then .invalid
      else
        match ts.sess.timers.get? i with
        | none => .invalid
        | some (ft, key) =>
          if t < ft then .invalid
          else
            .ok ⟨⟨(match RedisServer.clear_key ts.sess.storage key with
                    | some s => s
                    | none => ts.sess.storage),
                  ts.sess.config, ts.sess.timers.eraseIdx i⟩, t, ts.outputs⟩ := rfl

lemma runTrace_cons (ts : TraceState) (e : SessionEvent) (rest : List SessionEvent) :
    runTrace ts (e :: rest) =
      match stepEvent ts e with
      | .ok ts2 => runTrace ts2 rest
      | r => r := rfl

lemma runTrace_recv_cons (ts : TraceState) (t : Int) (data : String)
    (rest : List SessionEvent) (ht : ¬ t < ts.time) (hdata : data ≠ "")
    (st2 : SessionState) (out : String)
    (hproc : RedisServer.processFrame t data ts.sess = some (st2, out)) :
    runTrace ts (.recv t data :: rest) =
      runTrace ⟨st2, t, ts.outputs ++ [out]⟩ rest := by
  rw [runTrace_cons, stepEvent_recv, if_neg (by simp [ht, hdata]), hproc]

lemma runTrace_recv_crash (ts : TraceState) (t : Int) (data : String)
    (rest : List SessionEvent) (ht : ¬ t < ts.time) (hdata : data ≠ "")
    (hproc : RedisServer.processFrame t data ts.sess = none) :
    runTrace ts (.recv t data :: rest) = .crashed ⟨ts.sess, t, ts.outputs⟩ := by
  rw [runTrace_cons, stepEvent_recv, if_neg (by simp [ht, hdata]), hproc]

lemma runTrace_timer_cons (ts : TraceState) (t : Int) (i : Nat) (ft : Int)
    (key : String) (rest : List SessionEvent) (hts : ¬ t < ts.time)
    (hget : ts.sess.timers.get? i = some (ft, key)) (hft : ¬ t < ft)
    (s2 : List (String × String))
    (hclear : RedisServer.clear_key ts.sess.storage key = some s2) :
    runTrace ts (.timerFires t i :: rest) =
      runTrace ⟨⟨s2, ts.sess.config, ts.sess.timers.eraseIdx i⟩, t, ts.outputs⟩ rest := by
  rw [runTrace_cons, stepEvent_timer, if_neg hts, hget]
  rw [show (match some (ft, key) with
      | none => Outcome.invalid
      | some (ft, key) =>
        if t < ft then Outcome.invalid
        else
          Outcome.ok ⟨⟨(match RedisServer.clear_key ts.sess.storage key with
                        | some s => s
                        | none => ts.sess.storage),
                ts.sess.config, ts.sess.timers.eraseIdx i⟩, t, ts.outputs⟩) =
      (if t < ft then Outcome.invalid
        else
          Outcome.ok ⟨⟨(match RedisServer.clear_key ts.sess.storage key with
                        | some s => s
                        | none => ts.sess.storage),
                ts.sess.config, ts.sess.timers.eraseIdx i⟩, t, ts.outputs⟩) from rfl,
    if_neg hft, hclear]

/-! ### Literal-reduction helpers -/

lemma dispatch_ping (now : Int) (args : List String) (st : SessionState) :
    RedisServer.dispatch now "ping" args st = RedisServer.ping args st := rfl

lemma dispatch_echo (now : Int) (args : List String) (st : SessionState) :
    RedisServer.dispatch now "echo" args st = RedisServer.echo args st := rfl

lemma dispatch_set (now : Int) (args : List String) (st : SessionState) :
    RedisServer.dispatch now "set" args st = RedisServer.set now args st := rfl

lemma dispatch_get (now : Int) (args : List String) (st : SessionState) :
    RedisServer.dispatch now "get" args st = RedisServer.get args st := rfl

lemma dispatch_config (now : Int) (args : List String) (st : SessionState) :
    RedisServer.dispatch now "config" args st = RedisServer.config args st := rfl

lemma pyLower_twice_set : pyLower (pyLower "set") = "set" := by decide

lemma pyLower_twice_get : pyLower (pyLower "get") = "get" := by decide

lemma pyLower_twice_echo : pyLower (pyLower "echo") = "echo" := by decide

lemma pyLower_twice_config : pyLower (pyLower "config") = "config" := by decide

lemma pyLower_px : pyLower "px" = "px" := by decide

lemma pyLower_set : pyLower "set" = "set" := by decide

lemma pyLower_get : pyLower "get" = "get" := by decide

lemma goodToken_of_literal_set : goodToken "set" := by
  constructor
  · decide
  · decide

lemma set_two_args (now : Int) (k v : String) (st : SessionState) :
    RedisServer.set now [k, v] st =
      some ({ storage := dictSet st.storage k v, config := st.config,
              timers := st.timers }, "+OK\r\n") := rfl

lemma set_px_args (now : Int) (k v tok : String) (ttl : Int) (st : SessionState)
    (htok : pyInt tok = some ttl) :
    RedisServer.set now [k, v, "px", tok] st =
      some ({ storage := dictSet st.storage k v, config := st.config,
              timers := st.timers ++ [(now + ttl, k)] }, "+OK\r\n") := by
  unfold RedisServer.set
  simp only [List.get?, htok]
  rfl

lemma get_one_arg (k : String) (st : SessionState) :
    RedisServer.get [k] st =
      some (st,
        match dictGet st.storage k with
        | none => "$-1\r\n"
        | some value => "$" ++ Nat.repr value.length ++ "\r\n" ++ value ++ "\r\n") := rfl

example : pySplitWs "*3\r\n$3\r\nset\r\n$3\r\nkey\r\n$5\r\nvalue\r\n" =
    ["*3", "$3", "set", "$3", "key", "$5", "value", ""] := by decide

example : mkFrame ["set", "key", "value"] =
    "*3\r\n$3\r\nset\r\n$3\r\nkey\r\n$5\r\nvalue\r\n" := by decide

example : RedisServer.parse_command "*3\r\n$3\r\nset\r\n$3\r\nkey\r\n$5\r\nvalue\r\n" =
    some ("set", ["key", "value"]) := by decide

example : runFrames ["*1\r\n$4\r\nPING\r\n"] =
    .ok ⟨RedisServer.init none none, 0, ["+PONG\r\n"]⟩ := by decide

/-! ## The claims -/

/-- Claim C7: for every incoming frame, the decoder splits the text on
whitespace/CRLF boundaries (`pySplitWs` embeds `re.split(r"\s+", data)`),
takes token index 2, lower-cased, as the command name, and takes the
tokens at indices 4, 6, 8, … of the token stream — every second token
from index 4 on — as the ordered argument list (the array-count and
length-prefix tokens at indices 0, 1, 3, 5, … are discarded). -/
theorem C7_decoder_token_slice (data : String) :
    (RedisServer.parse_command data =
      match (pySplitWs data).get? 2 with
      | none => none
      | some t => some (pyLower t, everyOther ((pySplitWs data).drop 4))) ∧
    ∀ (parts : List String) (j : Nat),
      (everyOther (parts.drop 4)).get? j = parts.get? (4 + 2 * j) := by
  constructor
  · rfl
  · intro parts j
    rw [everyOther_get?, List.get?_drop]

/-- Claim C9: a command name outside `{ping, echo, set, get, config}` is
dispatched to `handle_unknown`, which replies `-ERR unknown command\r\n`
and leaves the state untouched; a `CONFIG` invocation whose first
argument is neither `get` nor `set` replies `-ERR unknown subcommand\r\n`
with the state untouched; and in both cases the session keeps processing
subsequent frames (concrete two-frame session as the third conjunct). -/
theorem C9_unknown_command_and_subcommand (now : Int) (st : SessionState)
    (cmd : String) (args : List String) (sub : String) (rest : List String)
    (h : cmd ∉ (["ping", "echo", "set", "get", "config"] : List String))
    (h1 : sub ≠ "get") (h2 : sub ≠ "set") :
    RedisServer.dispatch now cmd args st =
      some (st, encodeError "ERR unknown command") ∧
    RedisServer.config (sub :: rest) st =
      some (st, encodeError "ERR unknown subcommand") ∧
    runFrames [mkFrame ["flushall"], mkFrame ["ping"]] =
      .ok ⟨RedisServer.init none none, 0,
           [encodeError "ERR unknown command", "+PONG\r\n"]⟩ := by
  have he1 : encodeError "ERR unknown command" = "-ERR unknown command\r\n" := by decide
  have he2 : encodeError "ERR unknown subcommand" = "-ERR unknown subcommand\r\n" := by
    decide
  rw [he1, he2]
  simp only [List.mem_cons, List.not_mem_nil, or_false, not_or] at h
  obtain ⟨hping, hecho, hset, hget, hconfig⟩ := h
  refine ⟨?_, ?_, by decide⟩
  · unfold RedisServer.dispatch
    rw [if_neg hping, if_neg hecho, if_neg hset, if_neg hget, if_neg hconfig]
    rfl
  · simp [RedisServer.config, h1, h2]

/-- Claim C9, witnessed at `FLUSHALL` (unknown command) and
`CONFIG RESETSTAT` (unknown subcommand). -/
theorem C9_witness :
    RedisServer.dispatch 0 "flushall" [] (RedisServer.init none none) =
      some (RedisServer.init none none, encodeError "ERR unknown command") ∧
    RedisServer.config ("resetstat" :: []) (RedisServer.init none none) =
      some (RedisServer.init none none, encodeError "ERR unknown subcommand") ∧
    runFrames [mkFrame ["flushall"], mkFrame ["ping"]] =
      .ok ⟨RedisServer.init none none, 0,
           [encodeError "ERR unknown command", "+PONG\r\n"]⟩ :=
  C9_unknown_command_and_subcommand 0 (RedisServer.init none none) "flushall" []
    "resetstat" [] (by decide) (by decide) (by decide)

/-- Claim C5 is falsified by an uppercase value: the whole frame is
lowercased by `run` before parsing, so `SET k AB` stores `ab` and the
subsequent `GET k` replies `$2\r\nab\r\n`, not `BulkString("AB")`. -/
theorem C5_counterexample :
    runFrames [mkFrame ["set", "k", "AB"], mkFrame ["get", "k"]] =
      .ok ⟨⟨[("k", "ab")], [("dir", none), ("dbfilename", none)], []⟩, 0,
           ["+OK\r\n", "$2\r\nab\r\n"]⟩ ∧
    "$2\r\nab\r\n" ≠ encodeBulkString "AB" :=
  ⟨by decide, by decide⟩

/-- Claim C5 (amended): for all whitespace-free nonempty `(key, value)`,
`SET key value` followed by `GET key` on one session replies
`BulkString(pyLower value)` — the lowercased form of the value the client
sent (byte-identical only when the value has no uppercase letter). -/
theorem C5_set_get_roundtrip_lowercased (key value : String)
    (hk : goodToken key) (hv : goodToken value) :
    runFrames [mkFrame ["set", key, value], mkFrame ["get", key]] =
      .ok ⟨⟨[(pyLower key, pyLower value)], [("dir", none), ("dbfilename", none)], []⟩,
           0, ["+OK\r\n", encodeBulkString (pyLower value)]⟩ := by
  have hgood1 : ∀ t ∈ ("set" : String) :: [key, value], goodToken t := by
    intro t ht
    simp only [List.mem_cons, List.not_mem_nil, or_false] at ht
    rcases ht with rfl | rfl | rfl
    · decide
    · exact hk
    · exact hv
  have hgood2 : ∀ t ∈ ("get" : String) :: [key], goodToken t := by
    intro t ht
    simp only [List.mem_cons, List.not_mem_nil, or_false] at ht
    rcases ht with rfl | rfl
    · decide
    · exact hk
  have hproc1 : RedisServer.processFrame 0 (mkFrame ["set", key, value])
      (RedisServer.init none none) =
      some (⟨[(pyLower key, pyLower value)], [("dir", none), ("dbfilename", none)], []⟩,
        "+OK\r\n") := by
    rw [processFrame_mkFrame 0 "set" [key, value] _ hgood1, pyLower_twice_set]
    rfl
  have hfound : dictGet [(pyLower key, pyLower value)] (pyLower key) =
      some (pyLower value) := by
    unfold dictGet
    rw [List.find?_cons_of_pos _ (by simp)]
    rfl
  have hproc2 : RedisServer.processFrame 0 (mkFrame ["get", key])
      (⟨[(pyLower key, pyLower value)], [("dir", none), ("dbfilename", none)], []⟩ :
        SessionState) =
      some (⟨[(pyLower key, pyLower value)], [("dir", none), ("dbfilename", none)], []⟩,
        encodeBulkString (pyLower value)) := by
    rw [processFrame_mkFrame 0 "get" [key] _ hgood2, pyLower_twice_get,
      show List.map pyLower [key] = [pyLower key] from rfl,
      dispatch_get, get_one_arg, hfound]
    rfl
  have h1 := runTrace_recv_cons ⟨RedisServer.init none none, 0, []⟩ 0
    (mkFrame ["set", key, value]) [SessionEvent.recv 0 (mkFrame ["get", key])]
    (by exact lt_irrefl 0) (mkFrame_ne_empty _) _ _ hproc1
  have h2 := runTrace_recv_cons
    ⟨⟨[(pyLower key, pyLower value)], [("dir", none), ("dbfilename", none)], []⟩, 0,
      ["+OK\r\n"]⟩ 0 (mkFrame ["get", key]) [] (by exact lt_irrefl 0) (mkFrame_ne_empty _) _ _ hproc2
  show runTrace ⟨RedisServer.init none none, 0, []⟩
      [.recv 0 (mkFrame ["set", key, value]), .recv 0 (mkFrame ["get", key])] = _
  rw [h1]
  show runTrace ⟨⟨[(pyLower key, pyLower value)], [("dir", none), ("dbfilename", none)],
      []⟩, 0, ["+OK\r\n"]⟩ [.recv 0 (mkFrame ["get", key])] = _
  rw [h2]
  rfl

/-- Claim C5 (amended), witnessed at `SET foo bar` / `GET foo`. -/
theorem C5_witness :
    runFrames [mkFrame ["set", "foo", "bar"], mkFrame ["get", "foo"]] =
      .ok ⟨⟨[(pyLower "foo", pyLower "bar")], [("dir", none), ("dbfilename", none)], []⟩,
           0, ["+OK\r\n", encodeBulkString (pyLower "bar")]⟩ :=
  C5_set_get_roundtrip_lowercased "foo" "bar" (by decide) (by decide)

/-- Claim C6 is falsified by an uppercase argument: the whole frame is
lowercased by `run` before parsing, so `ECHO HELLO` replies
`+hello\r\n`, not `SimpleString("HELLO")`. -/
theorem C6_counterexample :
    runFrames [mkFrame ["echo", "HELLO"]] =
      .ok ⟨RedisServer.init none none, 0, ["+hello\r\n"]⟩ ∧
    "+hello\r\n" ≠ encodeSimpleString "HELLO" :=
  ⟨by decide, by decide⟩

/-- Claim C6 (amended): for all whitespace-free nonempty `s`, `ECHO s`
replies `SimpleString(pyLower s)` — the lowercased form of the argument
the client sent (byte-identical only when `s` has no uppercase letter). -/
theorem C6_echo_lowercased (s : String) (hs : goodToken s) :
    runFrames [mkFrame ["echo", s]] =
      .ok ⟨RedisServer.init none none, 0, [encodeSimpleString (pyLower s)]⟩ := by
  have hgood : ∀ t ∈ ("echo" : String) :: [s], goodToken t := by
    intro t ht
    simp only [List.mem_cons, List.not_mem_nil, or_false] at ht
    rcases ht with rfl | rfl
    · decide
    · exact hs
  have hproc : RedisServer.processFrame 0 (mkFrame ["echo", s])
      (RedisServer.init none none) =
      some (RedisServer.init none none, encodeSimpleString (pyLower s)) := by
    rw [processFrame_mkFrame 0 "echo" [s] _ hgood, pyLower_twice_echo]
    rfl
  have h1 := runTrace_recv_cons ⟨RedisServer.init none none, 0, []⟩ 0
    (mkFrame ["echo", s]) [] (by exact lt_irrefl 0) (mkFrame_ne_empty _) _ _ hproc
  show runTrace ⟨RedisServer.init none none, 0, []⟩ [.recv 0 (mkFrame ["echo", s])] = _
  rw [h1]
  rfl

/-- Claim C6 (amended), witnessed at `ECHO hey`. -/
theorem C6_witness :
    runFrames [mkFrame ["echo", "hey"]] =
      .ok ⟨RedisServer.init none none, 0, [encodeSimpleString (pyLower "hey")]⟩ :=
  C6_echo_lowercased "hey" (by decide)

/-- Claim C8: after `CONFIG SET foo bar` (for any whitespace-free nonempty
parameter/value, here quantified and lowercased by the connection loop),
`CONFIG GET` of that parameter replies the array header followed by each
item's BulkString encoding; and `CONFIG GET` of a parameter never set
replies `BulkString(nil)` (on a server started without `--dir` and
`--dbfilename`, whose seed values are Python `None`). -/
theorem C8_config_roundtrip (p v q : String)
    (hp : goodToken p) (hv : goodToken v) (hq : goodToken q) :
    runFrames [mkFrame ["config", "set", p, v], mkFrame ["config", "get", p]] =
      .ok ⟨⟨[], dictSet [("dir", none), ("dbfilename", none)] (pyLower p)
              (some (pyLower v)), []⟩,
           0, ["+OK\r\n", encodeArray2 (pyLower p) (pyLower v)]⟩ ∧
    runFrames [mkFrame ["config", "get", q]] =
      .ok ⟨RedisServer.init none none, 0, [encodeBulkNil]⟩ := by
  have hgood1 : ∀ t ∈ ("config" : String) :: ["set", p, v], goodToken t := by
    intro t ht
    simp only [List.mem_cons, List.not_mem_nil, or_false] at ht
    rcases ht with rfl | rfl | rfl | rfl
    · decide
    · decide
    · exact hp
    · exact hv
  have hgood2 : ∀ t ∈ ("config" : String) :: ["get", p], goodToken t := by
    intro t ht
    simp only [List.mem_cons, List.not_mem_nil, or_false] at ht
    rcases ht with rfl | rfl | rfl
    · decide
    · decide
    · exact hp
  have hgood3 : ∀ t ∈ ("config" : String) :: ["get", q], goodToken t := by
    intro t ht
    simp only [List.mem_cons, List.not_mem_nil, or_false] at ht
    rcases ht with rfl | rfl | rfl
    · decide
    · decide
    · exact hq
  have hproc1 : RedisServer.processFrame 0 (mkFrame ["config", "set", p, v])
      (RedisServer.init none none) =
      some (⟨[], dictSet [("dir", none), ("dbfilename", none)] (pyLower p)
          (some (pyLower v)), []⟩, "+OK\r\n") := by
    rw [processFrame_mkFrame 0 "config" ["set", p, v] _ hgood1, pyLower_twice_config,
      show List.map pyLower ["set", p, v] = ["set", pyLower p, pyLower v] by
        rw [show List.map pyLower ["set", p, v] =
          [pyLower "set", pyLower p, pyLower v] from rfl, pyLower_set]]
    rfl
  have harr : RedisServer.config_get
      (⟨[], dictSet [("dir", none), ("dbfilename", none)] (pyLower p)
          (some (pyLower v)), []⟩ : SessionState) (pyLower p) =
      encodeArray2 (pyLower p) (pyLower v) := by
    unfold RedisServer.config_get
    rw [show (⟨[], dictSet [("dir", none), ("dbfilename", none)] (pyLower p)
          (some (pyLower v)), []⟩ : SessionState).config =
        dictSet [("dir", none), ("dbfilename", none)] (pyLower p)
          (some (pyLower v)) from rfl,
      dictGet_dictSet]
    rfl
  have hproc2 : RedisServer.processFrame 0 (mkFrame ["config", "get", p])
      (⟨[], dictSet [("dir", none), ("dbfilename", none)] (pyLower p)
          (some (pyLower v)), []⟩ : SessionState) =
      some (⟨[], dictSet [("dir", none), ("dbfilename", none)] (pyLower p)
          (some (pyLower v)), []⟩, encodeArray2 (pyLower p) (pyLower v)) := by
    rw [processFrame_mkFrame 0 "config" ["get", p] _ hgood2, pyLower_twice_config,
      show List.map pyLower ["get", p] = ["get", pyLower p] by
        rw [show List.map pyLower ["get", p] = [pyLower "get", pyLower p] from rfl,
          pyLower_get],
      dispatch_config]
    simp [RedisServer.config, harr]
  have hnil : RedisServer.config_get (RedisServer.init none none) (pyLower q) =
      "$-1\r\n" := by
    unfold RedisServer.config_get
    rcases hd : dictGet (RedisServer.init none none).config (pyLower q) with _ | a
    · rfl
    · obtain ⟨pr, hfind, hpr⟩ := Option.map_eq_some'.1 hd
      have hmem := List.mem_of_find?_eq_some hfind
      have hnone : pr.2 = none := by
        rcases List.mem_cons.1 hmem with h | h
        · rw [h]
        · rcases List.mem_cons.1 h with h | h
          · rw [h]
          · simp at h
      rw [← hpr, hnone]
  have hproc3 : RedisServer.processFrame 0 (mkFrame ["config", "get", q])
      (RedisServer.init none none) =
      some (RedisServer.init none none, encodeBulkNil) := by
    rw [processFrame_mkFrame 0 "config" ["get", q] _ hgood3, pyLower_twice_config,
      show List.map pyLower ["get", q] = ["get", pyLower q] by
        rw [show List.map pyLower ["get", q] = [pyLower "get", pyLower q] from rfl,
          pyLower_get],
      dispatch_config]
    simp [RedisServer.config, hnil]
    rfl
  constructor
  · have h1 := runTrace_recv_cons ⟨RedisServer.init none none, 0, []⟩ 0
      (mkFrame ["config", "set", p, v]) [SessionEvent.recv 0 (mkFrame ["config", "get", p])]
      (by exact lt_irrefl 0) (mkFrame_ne_empty _) _ _ hproc1
    have h2 := runTrace_recv_cons
      ⟨⟨[], dictSet [("dir", none), ("dbfilename", none)] (pyLower p)
          (some (pyLower v)), []⟩, 0, ["+OK\r\n"]⟩ 0
      (mkFrame ["config", "get", p]) [] (by exact lt_irrefl 0) (mkFrame_ne_empty _) _ _ hproc2
    show runTrace ⟨RedisServer.init none none, 0, []⟩
      [.recv 0 (mkFrame ["config", "set", p, v]),
       .recv 0 (mkFrame ["config", "get", p])] = _
    rw [h1]
    show runTrace ⟨⟨[], dictSet [("dir", none), ("dbfilename", none)] (pyLower p)
        (some (pyLower v)), []⟩, 0, ["+OK\r\n"]⟩
      [.recv 0 (mkFrame ["config", "get", p])] = _
    rw [h2]
    rfl
  · have h3 := runTrace_recv_cons ⟨RedisServer.init none none, 0, []⟩ 0
      (mkFrame ["config", "get", q]) [] (by exact lt_irrefl 0) (mkFrame_ne_empty _) _ _ hproc3
    show runTrace ⟨RedisServer.init none none, 0, []⟩
      [.recv 0 (mkFrame ["config", "get", q])] = _
    rw [h3]
    rfl

/-- Claim C8, witnessed at `CONFIG SET foo bar`, `CONFIG GET foo`, and
`CONFIG GET baz` (never set). -/
theorem C8_witness :
    runFrames [mkFrame ["config", "set", "foo", "bar"], mkFrame ["config", "get", "foo"]] =
      .ok ⟨⟨[], dictSet [("dir", none), ("dbfilename", none)] (pyLower "foo")
              (some (pyLower "bar")), []⟩,
           0, ["+OK\r\n", encodeArray2 (pyLower "foo") (pyLower "bar")]⟩ ∧
    runFrames [mkFrame ["config", "get", "baz"]] =
      .ok ⟨RedisServer.init none none, 0, [encodeBulkNil]⟩ :=
  C8_config_roundtrip "foo" "bar" "baz" (by decide) (by decide) (by decide)

/-- Claim C1 is falsified: `handle_client` constructs a fresh `RedisServer`
— hence a fresh empty `storage` dict — for every connection.  Session A
successfully stores `k = v` (first conjunct), yet a separate session's
`GET k` replies nil (second conjunct), not `BulkString("v")`. -/
theorem C1_counterexample :
    handle_client none none [.recv 0 (mkFrame ["set", "k", "v"])] =
      .ok ⟨⟨[("k", "v")], [("dir", none), ("dbfilename", none)], []⟩, 0, ["+OK\r\n"]⟩ ∧
    handle_client none none [.recv 0 (mkFrame ["get", "k"])] =
      .ok ⟨RedisServer.init none none, 0, [encodeBulkNil]⟩ ∧
    encodeBulkNil ≠ encodeBulkString "v" :=
  ⟨by decide, by decide, by decide⟩

/-- Claim C1 (amended): `Store` and `ConfigStore` are per-session, not
process-wide singletons: every `handle_client` call builds its own state
with `RedisServer.init` (empty storage), sharing nothing with any other
session, so the first `GET` of any key in a session replies nil no matter
what other sessions have written. -/
theorem C1_store_is_per_session (dbfilename directory : Option String)
    (key : String) (hk : goodToken key) :
    handle_client dbfilename directory [.recv 0 (mkFrame ["get", key])] =
      .ok ⟨RedisServer.init dbfilename directory, 0, [encodeBulkNil]⟩ := by
  have hgood : ∀ t ∈ ("get" : String) :: [key], goodToken t := by
    intro t ht
    simp only [List.mem_cons, List.not_mem_nil, or_false] at ht
    rcases ht with rfl | rfl
    · decide
    · exact hk
  have hproc : RedisServer.processFrame 0 (mkFrame ["get", key])
      (RedisServer.init dbfilename directory) =
      some (RedisServer.init dbfilename directory, encodeBulkNil) := by
    rw [processFrame_mkFrame 0 "get" [key] _ hgood, pyLower_twice_get,
      show List.map pyLower [key] = [pyLower key] from rfl,
      dispatch_get, get_one_arg]
    rfl
  have h1 := runTrace_recv_cons ⟨RedisServer.init dbfilename directory, 0, []⟩ 0
    (mkFrame ["get", key]) [] (by exact lt_irrefl 0) (mkFrame_ne_empty _) _ _ hproc
  show runTrace ⟨RedisServer.init dbfilename directory, 0, []⟩
    [.recv 0 (mkFrame ["get", key])] = _
  rw [h1]
  rfl

/-- Claim C1 (amended), witnessed on a server started with
`--dir /TMP --dbfilename DUMP.RDB`. -/
theorem C1_witness :
    handle_client (some "DUMP.RDB") (some "/TMP") [.recv 0 (mkFrame ["get", "k"])] =
      .ok ⟨RedisServer.init (some "DUMP.RDB") (some "/TMP"), 0, [encodeBulkNil]⟩ :=
  C1_store_is_per_session (some "DUMP.RDB") (some "/TMP") "k" (by decide)

/-- Claim C2 is falsified: after `SET k v px 100` at time 0, a `GET k` at
time 150 — after the TTL has logically elapsed but before the deferred
`threading.Timer` callback has run (the timer only guarantees a lower
bound) — still replies `$1\r\nv\r\n`, not nil: `get` performs no lazy
expiration check. -/
theorem C2_counterexample :
    handle_client none none
      [.recv 0 (mkFrame ["set", "k", "v", "px", "100"]),
       .recv 150 (mkFrame ["get", "k"])] =
      .ok ⟨⟨[("k", "v")], [("dir", none), ("dbfilename", none)], [(100, "k")]⟩, 150,
           ["+OK\r\n", "$1\r\nv\r\n"]⟩ ∧
    "$1\r\nv\r\n" ≠ encodeBulkNil :=
  ⟨by decide, by decide⟩

/-- Claim C2 (amended): `get` returns the stored value iff the key is
currently in the dict — there is no lazy expiration check.  After
`SET key value px ttl` at time 0: (a) a `GET` at any later time `tg`
still replies the value as long as the timer callback has not run, even
with `tg` far past `ttl`; (b) once the deferred `_clear_key` callback has
fired (any `tf` with `ttl ≤ tf`), a later `GET` replies nil.  Expiry is
enforced solely by the timer deletion. -/
theorem C2_no_lazy_expiration_check (key value tok : String) (ttl tf tg : Int)
    (hk : goodToken key) (hv : goodToken value) (htok : goodToken tok)
    (httl : pyInt (pyLower tok) = some ttl) (htg : 0 ≤ tg) :
    (handle_client none none
        [.recv 0 (mkFrame ["set", key, value, "px", tok]),
         .recv tg (mkFrame ["get", key])] =
      .ok ⟨⟨[(pyLower key, pyLower value)], [("dir", none), ("dbfilename", none)],
            [(ttl, pyLower key)]⟩, tg,
           ["+OK\r\n", encodeBulkString (pyLower value)]⟩) ∧
    (0 ≤ tf → ttl ≤ tf → tf ≤ tg →
      handle_client none none
        [.recv 0 (mkFrame ["set", key, value, "px", tok]),
         .timerFires tf 0,
         .recv tg (mkFrame ["get", key])] =
      .ok ⟨⟨[], [("dir", none), ("dbfilename", none)], []⟩, tg,
           ["+OK\r\n", encodeBulkNil]⟩) := by
  have hgood1 : ∀ t ∈ ("set" : String) :: [key, value, "px", tok], goodToken t := by
    intro t ht
    simp only [List.mem_cons, List.not_mem_nil, or_false] at ht
    rcases ht with rfl | rfl | rfl | rfl | rfl
    · decide
    · exact hk
    · exact hv
    · decide
    · exact htok
  have hgood2 : ∀ t ∈ ("get" : String) :: [key], goodToken t := by
    intro t ht
    simp only [List.mem_cons, List.not_mem_nil, or_false] at ht
    rcases ht with rfl | rfl
    · decide
    · exact hk
  have hproc1 : RedisServer.processFrame 0 (mkFrame ["set", key, value, "px", tok])
      (RedisServer.init none none) =
      some (⟨[(pyLower key, pyLower value)], [("dir", none), ("dbfilename", none)],
        [(ttl, pyLower key)]⟩, "+OK\r\n") := by
    rw [processFrame_mkFrame 0 "set" [key, value, "px", tok] _ hgood1, pyLower_twice_set,
      show List.map pyLower [key, value, "px", tok] =
        [pyLower key, pyLower value, "px", pyLower tok] by
        rw [show List.map pyLower [key, value, "px", tok] =
          [pyLower key, pyLower value, pyLower "px", pyLower tok] from rfl, pyLower_px],
      dispatch_set, set_px_args 0 _ _ _ _ _ httl]
    rw [show ((0 : Int) + ttl) = ttl from zero_add ttl]
    rfl
  have hfound : dictGet [(pyLower key, pyLower value)] (pyLower key) =
      some (pyLower value) := by
    unfold dictGet
    rw [List.find?_cons_of_pos _ (by simp)]
    rfl
  constructor
  · have hproc2 : RedisServer.processFrame tg (mkFrame ["get", key])
        (⟨[(pyLower key, pyLower value)], [("dir", none), ("dbfilename", none)],
          [(ttl, pyLower key)]⟩ : SessionState) =
        some (⟨[(pyLower key, pyLower value)], [("dir", none), ("dbfilename", none)],
          [(ttl, pyLower key)]⟩, encodeBulkString (pyLower value)) := by
      rw [processFrame_mkFrame tg "get" [key] _ hgood2, pyLower_twice_get,
        show List.map pyLower [key] = [pyLower key] from rfl,
        dispatch_get, get_one_arg, hfound]
      rfl
    have h1 := runTrace_recv_cons ⟨RedisServer.init none none, 0, []⟩ 0
      (mkFrame ["set", key, value, "px", tok])
      [SessionEvent.recv tg (mkFrame ["get", key])]
      (by exact lt_irrefl 0) (mkFrame_ne_empty _) _ _ hproc1
    have h2 := runTrace_recv_cons
      ⟨⟨[(pyLower key, pyLower value)], [("dir", none), ("dbfilename", none)],
        [(ttl, pyLower key)]⟩, 0, ["+OK\r\n"]⟩ tg (mkFrame ["get", key]) []
      (by exact Int.not_lt.2 htg) (mkFrame_ne_empty _) _ _ hproc2
    show runTrace ⟨RedisServer.init none none, 0, []⟩
      [.recv 0 (mkFrame ["set", key, value, "px", tok]),
       .recv tg (mkFrame ["get", key])] = _
    rw [h1]
    show runTrace ⟨⟨[(pyLower key, pyLower value)], [("dir", none), ("dbfilename", none)],
      [(ttl, pyLower key)]⟩, 0, ["+OK\r\n"]⟩ [.recv tg (mkFrame ["get", key])] = _
    rw [h2]
    rfl
  · intro htf0 htf1 htf2
    have hclear : RedisServer.clear_key [(pyLower key, pyLower value)] (pyLower key) =
        some [] := by
      unfold RedisServer.clear_key
      rw [hfound]
      simp [dictDel]
    have hproc3 : RedisServer.processFrame tg (mkFrame ["get", key])
        (⟨[], [("dir", none), ("dbfilename", none)], []⟩ : SessionState) =
        some (⟨[], [("dir", none), ("dbfilename", none)], []⟩, encodeBulkNil) := by
      rw [processFrame_mkFrame tg "get" [key] _ hgood2, pyLower_twice_get,
        show List.map pyLower [key] = [pyLower key] from rfl,
        dispatch_get, get_one_arg]
      rfl
    have h1 := runTrace_recv_cons ⟨RedisServer.init none none, 0, []⟩ 0
      (mkFrame ["set", key, value, "px", tok])
      [SessionEvent.timerFires tf 0, SessionEvent.recv tg (mkFrame ["get", key])]
      (by exact lt_irrefl 0) (mkFrame_ne_empty _) _ _ hproc1
    have h2 := runTrace_timer_cons
      ⟨⟨[(pyLower key, pyLower value)], [("dir", none), ("dbfilename", none)],
        [(ttl, pyLower key)]⟩, 0, ["+OK\r\n"]⟩ tf 0 ttl (pyLower key)
      [SessionEvent.recv tg (mkFrame ["get", key])]
      (by exact Int.not_lt.2 htf0) rfl (by exact Int.not_lt.2 htf1) [] hclear
    have h3 := runTrace_recv_cons
      ⟨⟨[], [("dir", none), ("dbfilename", none)], []⟩, tf, ["+OK\r\n"]⟩ tg
      (mkFrame ["get", key]) [] (by exact Int.not_lt.2 htf2) (mkFrame_ne_empty _) _ _ hproc3
    show runTrace ⟨RedisServer.init none none, 0, []⟩
      [.recv 0 (mkFrame ["set", key, value, "px", tok]),
       .timerFires tf 0, .recv tg (mkFrame ["get", key])] = _
    rw [h1]
    show runTrace ⟨⟨[(pyLower key, pyLower value)], [("dir", none), ("dbfilename", none)],
      [(ttl, pyLower key)]⟩, 0, ["+OK\r\n"]⟩
      [.timerFires tf 0, .recv tg (mkFrame ["get", key])] = _
    rw [h2]
    show runTrace ⟨⟨[], [("dir", none), ("dbfilename", none)], []⟩, tf, ["+OK\r\n"]⟩
      [.recv tg (mkFrame ["get", key])] = _
    rw [h3]
    rfl

/-- Claim C2 (amended), witnessed at `SET k v px 100`, a `GET` at 150 ms
with the timer still pending (value returned), and a `GET` at 150 ms
after the timer fired at 100 ms (nil returned). -/
theorem C2_witness :
    (handle_client none none
        [.recv 0 (mkFrame ["set", "k", "v", "px", "100"]),
         .recv 150 (mkFrame ["get", "k"])] =
      .ok ⟨⟨[(pyLower "k", pyLower "v")], [("dir", none), ("dbfilename", none)],
            [(100, pyLower "k")]⟩, 150,
           ["+OK\r\n", encodeBulkString (pyLower "v")]⟩) ∧
    (0 ≤ (100 : Int) → (100 : Int) ≤ 100 → (100 : Int) ≤ 150 →
      handle_client none none
        [.recv 0 (mkFrame ["set", "k", "v", "px", "100"]),
         .timerFires 100 0,
         .recv 150 (mkFrame ["get", "k"])] =
      .ok ⟨⟨[], [("dir", none), ("dbfilename", none)], []⟩, 150,
           ["+OK\r\n", encodeBulkNil]⟩) :=
  C2_no_lazy_expiration_check "k" "v" "100" 100 100 150
    (by decide) (by decide) (by decide) (by decide) (by decide)

/-- Claim C3 is falsified: `SET k v px 100` at 0 ms, overwrite `SET k w`
at 10 ms, stale timer fires at 100 ms, `GET k` at 120 ms replies nil —
the unconditional `del self.storage[key]` in `_clear_key` removed the
newer value `w`, which the claim says must survive. -/
theorem C3_counterexample :
    handle_client none none
      [.recv 0 (mkFrame ["set", "k", "v", "px", "100"]),
       .recv 10 (mkFrame ["set", "k", "w"]),
       .timerFires 100 0,
       .recv 120 (mkFrame ["get", "k"])] =
      .ok ⟨⟨[], [("dir", none), ("dbfilename", none)], []⟩, 120,
           ["+OK\r\n", "+OK\r\n", encodeBulkNil]⟩ ∧
    encodeBulkNil ≠ encodeBulkString "w" :=
  ⟨by decide, by decide⟩

/-- Claim C3 (amended): `_clear_key` deletes its key unconditionally, so a
stale deferred deletion that fires after an overwrite removes the newer
value: for any `SET key v1 px ttl` at 0, overwrite `SET key v2` at `t1`,
stale timer firing at `tf ≥ ttl`, a `GET key` at `tg ≥ tf` replies nil,
not `v2`. -/
theorem C3_stale_timer_deletes_newer_value (key v1 v2 tok : String)
    (ttl t1 tf tg : Int)
    (hk : goodToken key) (hv1 : goodToken v1) (hv2 : goodToken v2)
    (htok : goodToken tok) (httl : pyInt (pyLower tok) = some ttl)
    (h0 : 0 ≤ t1) (h1 : t1 ≤ tf) (h2 : ttl ≤ tf) (h3 : tf ≤ tg) :
    handle_client none none
      [.recv 0 (mkFrame ["set", key, v1, "px", tok]),
       .recv t1 (mkFrame ["set", key, v2]),
       .timerFires tf 0,
       .recv tg (mkFrame ["get", key])] =
      .ok ⟨⟨[], [("dir", none), ("dbfilename", none)], []⟩, tg,
           ["+OK\r\n", "+OK\r\n", encodeBulkNil]⟩ := by
  have hgood1 : ∀ t ∈ ("set" : String) :: [key, v1, "px", tok], goodToken t := by
    intro t ht
    simp only [List.mem_cons, List.not_mem_nil, or_false] at ht
    rcases ht with rfl | rfl | rfl | rfl | rfl
    · decide
    · exact hk
    · exact hv1
    · decide
    · exact htok
  have hgood2 : ∀ t ∈ ("set" : String) :: [key, v2], goodToken t := by
    intro t ht
    simp only [List.mem_cons, List.not_mem_nil, or_false] at ht
    rcases ht with rfl | rfl | rfl
    · decide
    · exact hk
    · exact hv2
  have hgood3 : ∀ t ∈ ("get" : String) :: [key], goodToken t := by
    intro t ht
    simp only [List.mem_cons, List.not_mem_nil, or_false] at ht
    rcases ht with rfl | rfl
    · decide
    · exact hk
  have hproc1 : RedisServer.processFrame 0 (mkFrame ["set", key, v1, "px", tok])
      (RedisServer.init none none) =
      some (⟨[(pyLower key, pyLower v1)], [("dir", none), ("dbfilename", none)],
        [(ttl, pyLower key)]⟩, "+OK\r\n") := by
    rw [processFrame_mkFrame 0 "set" [key, v1, "px", tok] _ hgood1, pyLower_twice_set,
      show List.map pyLower [key, v1, "px", tok] =
        [pyLower key, pyLower v1, "px", pyLower tok] by
        rw [show List.map pyLower [key, v1, "px", tok] =
          [pyLower key, pyLower v1, pyLower "px", pyLower tok] from rfl, pyLower_px],
      dispatch_set, set_px_args 0 _ _ _ _ _ httl]
    rw [show ((0 : Int) + ttl) = ttl from zero_add ttl]
    rfl
  have hoverwrite : dictSet [(pyLower key, pyLower v1)] (pyLower key) (pyLower v2) =
      [(pyLower key, pyLower v2)] := by
    simp [dictSet]
  have hproc2 : RedisServer.processFrame t1 (mkFrame ["set", key, v2])
      (⟨[(pyLower key, pyLower v1)], [("dir", none), ("dbfilename", none)],
        [(ttl, pyLower key)]⟩ : SessionState) =
      some (⟨[(pyLower key, pyLower v2)], [("dir", none), ("dbfilename", none)],
        [(ttl, pyLower key)]⟩, "+OK\r\n") := by
    rw [processFrame_mkFrame t1 "set" [key, v2] _ hgood2, pyLower_twice_set,
      show List.map pyLower [key, v2] = [pyLower key, pyLower v2] from rfl,
      dispatch_set, set_two_args]
    rw [show (⟨[(pyLower key, pyLower v1)], [("dir", none), ("dbfilename", none)],
      [(ttl, pyLower key)]⟩ : SessionState).storage = [(pyLower key, pyLower v1)] from rfl,
      hoverwrite]
  have hfound2 : dictGet [(pyLower key, pyLower v2)] (pyLower key) =
      some (pyLower v2) := by
    unfold dictGet
    rw [List.find?_cons_of_pos _ (by simp)]
    rfl
  have hclear : RedisServer.clear_key [(pyLower key, pyLower v2)] (pyLower key) =
      some [] := by
    unfold RedisServer.clear_key
    rw [hfound2]
    simp [dictDel]
  have hproc4 : RedisServer.processFrame tg (mkFrame ["get", key])
      (⟨[], [("dir", none), ("dbfilename", none)], []⟩ : SessionState) =
      some (⟨[], [("dir", none), ("dbfilename", none)], []⟩, encodeBulkNil) := by
    rw [processFrame_mkFrame tg "get" [key] _ hgood3, pyLower_twice_get,
      show List.map pyLower [key] = [pyLower key] from rfl,
      dispatch_get, get_one_arg]
    rfl
  have e1 := runTrace_recv_cons ⟨RedisServer.init none none, 0, []⟩ 0
    (mkFrame ["set", key, v1, "px", tok])
    [SessionEvent.recv t1 (mkFrame ["set", key, v2]),
     SessionEvent.timerFires tf 0, SessionEvent.recv tg (mkFrame ["get", key])]
    (by exact lt_irrefl 0) (mkFrame_ne_empty _) _ _ hproc1
  have e2 := runTrace_recv_cons
    ⟨⟨[(pyLower key, pyLower v1)], [("dir", none), ("dbfilename", none)],
      [(ttl, pyLower key)]⟩, 0, ["+OK\r\n"]⟩ t1 (mkFrame ["set", key, v2])
    [SessionEvent.timerFires tf 0, SessionEvent.recv tg (mkFrame ["get", key])]
    (by exact Int.not_lt.2 h0) (mkFrame_ne_empty _) _ _ hproc2
  have e3 := runTrace_timer_cons
    ⟨⟨[(pyLower key, pyLower v2)], [("dir", none), ("dbfilename", none)],
      [(ttl, pyLower key)]⟩, t1, ["+OK\r\n", "+OK\r\n"]⟩ tf 0 ttl (pyLower key)
    [SessionEvent.recv tg (mkFrame ["get", key])]
    (by exact Int.not_lt.2 h1) rfl (by exact Int.not_lt.2 h2) [] hclear
  have e4 := runTrace_recv_cons
    ⟨⟨[], [("dir", none), ("dbfilename", none)], []⟩, tf, ["+OK\r\n", "+OK\r\n"]⟩ tg
    (mkFrame ["get", key]) [] (by exact Int.not_lt.2 h3) (mkFrame_ne_empty _) _ _ hproc4
  show runTrace ⟨RedisServer.init none none, 0, []⟩
    [.recv 0 (mkFrame ["set", key, v1, "px", tok]),
     .recv t1 (mkFrame ["set", key, v2]),
     .timerFires tf 0, .recv tg (mkFrame ["get", key])] = _
  rw [e1]
  show runTrace ⟨⟨[(pyLower key, pyLower v1)], [("dir", none), ("dbfilename", none)],
    [(ttl, pyLower key)]⟩, 0, ["+OK\r\n"]⟩
    [.recv t1 (mkFrame ["set", key, v2]),
     .timerFires tf 0, .recv tg (mkFrame ["get", key])] = _
  rw [e2]
  show runTrace ⟨⟨[(pyLower key, pyLower v2)], [("dir", none), ("dbfilename", none)],
    [(ttl, pyLower key)]⟩, t1, ["+OK\r\n", "+OK\r\n"]⟩
    [.timerFires tf 0, .recv tg (mkFrame ["get", key])] = _
  rw [e3]
  show runTrace ⟨⟨[], [("dir", none), ("dbfilename", none)], []⟩, tf,
    ["+OK\r\n", "+OK\r\n"]⟩ [.recv tg (mkFrame ["get", key])] = _
  rw [e4]
  rfl

/-- Claim C3 (amended), witnessed at `SET k v px 100`, overwrite
`SET k w` at 10 ms, stale timer at 100 ms, `GET k` at 120 ms → nil. -/
theorem C3_witness :
    handle_client none none
      [.recv 0 (mkFrame ["set", "k", "v", "px", "100"]),
       .recv 10 (mkFrame ["set", "k", "w"]),
       .timerFires 100 0,
       .recv 120 (mkFrame ["get", "k"])] =
      .ok ⟨⟨[], [("dir", none), ("dbfilename", none)], []⟩, 120,
           ["+OK\r\n", "+OK\r\n", encodeBulkNil]⟩ :=
  C3_stale_timer_deletes_newer_value "k" "v" "w" "100" 100 10 100 120
    (by decide) (by decide) (by decide) (by decide) (by decide)
    (by decide) (by decide) (by decide) (by decide)

/-- Claim C4 is falsified: the malformed frame `"x"` (too few tokens for
`parts[2]`) raises an uncaught IndexError; `handle_client` catches it and
closes the session.  The session ends with no output at all — no `Error`
reply was written — and the following `PING` frame is never processed. -/
theorem C4_counterexample :
    runFrames ["x", mkFrame ["ping"]] =
      .crashed ⟨RedisServer.init none none, 0, []⟩ := by decide

/-- Claim C4 (amended): bad input does not produce an `Error` reply; it
raises an exception that kills the session with no reply.  Specifically:
(a) a frame whose lowered token stream has no index 2 makes
`parse_command` raise, so `processFrame` raises; (b) `GET` with no
argument raises; (c) `SET` with a missing value raises; (d) `SET` with a
non-integer TTL token raises; (e) any frame whose processing raises ends
the trace as `crashed`, with no reply appended for that frame and all
subsequent events discarded.  Only a well-formed frame whose command name
is unrecognized gets an `Error` reply (claim C9). -/
theorem C4_bad_input_kills_session :
    (∀ (now : Int) (st : SessionState) (data : String),
        (pySplitWs (pyLower data)).get? 2 = none →
        RedisServer.processFrame now data st = none) ∧
    (∀ (now : Int) (st : SessionState), RedisServer.dispatch now "get" [] st = none) ∧
    (∀ (now : Int) (st : SessionState) (k : String),
        RedisServer.dispatch now "set" [k] st = none) ∧
    (∀ (now : Int) (st : SessionState) (k v tok : String), pyInt tok = none →
        RedisServer.dispatch now "set" [k, v, "px", tok] st = none) ∧
    (∀ (ts : TraceState) (t : Int) (data : String) (rest : List SessionEvent),
        ¬ t < ts.time → data ≠ "" →
        RedisServer.processFrame t data ts.sess = none →
        runTrace ts (.recv t data :: rest) = .crashed ⟨ts.sess, t, ts.outputs⟩) := by
  refine ⟨?_, ?_, ?_, ?_, ?_⟩
  · intro now st data h
    rw [List.get?_eq_getElem?] at h
    simp [RedisServer.processFrame, RedisServer.handle_command,
      RedisServer.parse_command, h]
  · intro now st
    rfl
  · intro now st k
    rfl
  · intro now st k v tok h
    rw [dispatch_set]
    simp [RedisServer.set, h]
  · intro ts t data rest ht hdata hproc
    exact runTrace_recv_crash ts t data rest ht hdata hproc

/-- Claim C4 (amended), witnessed on the frame `"x"`, `GET` with no
argument, `SET k` with no value, `SET k v px abc`, and the one-frame
session on `"x"`. -/
theorem C4_witness :
    RedisServer.processFrame 0 "x" (RedisServer.init none none) = none ∧
    RedisServer.dispatch 0 "get" [] (RedisServer.init none none) = none ∧
    RedisServer.dispatch 0 "set" ["k"] (RedisServer.init none none) = none ∧
    RedisServer.dispatch 0 "set" ["k", "v", "px", "abc"]
      (RedisServer.init none none) = none ∧
    runTrace ⟨RedisServer.init none none, 0, []⟩ [.recv 0 "x"] =
      .crashed ⟨RedisServer.init none none, 0, []⟩ :=
  ⟨C4_bad_input_kills_session.1 0 (RedisServer.init none none) "x" (by decide),
   C4_bad_input_kills_session.2.1 0 (RedisServer.init none none),
   C4_bad_input_kills_session.2.2.1 0 (RedisServer.init none none) "k",
   C4_bad_input_kills_session.2.2.2.1 0 (RedisServer.init none none) "k" "v" "abc"
     (by decide),
   C4_bad_input_kills_session.2.2.2.2 ⟨RedisServer.init none none, 0, []⟩ 0 "x" []
     (by decide) (by decide)
     (C4_bad_input_kills_session.1 0 (RedisServer.init none none) "x" (by decide))⟩

/-! ### Helpers for claim C10 -/

lemma everyOther_map (f : α → β) : ∀ l : List α,
    everyOther (l.map f) = (everyOther l).map f
  | [] => rfl
  | [_] => rfl
  | x :: y :: rest => by
    simp only [List.map_cons, everyOther]
    rw [everyOther_map f rest]

/-- Lowercasing the raw frame commutes with the decoder: the command and
every argument the handlers observe are the lowercased forms of the
tokens the client sent. -/
lemma parse_lower_commute (data : String) :
    RedisServer.parse_command (pyLower data) =
      (RedisServer.parse_command data).map
        (fun pr => (pyLower pr.1, pr.2.map pyLower)) := by
  have parse_command_eq : ∀ d : String, RedisServer.parse_command d =
      (match (pySplitWs d).get? 2 with
        | none => none
        | some t => some (pyLower t, everyOther ((pySplitWs d).drop 4))) :=
    fun _ => rfl
  have hsplit : pySplitWs (pyLower data) = (pySplitWs data).map pyLower :=
    splitWs_map_lower data.data
  rw [parse_command_eq, parse_command_eq, hsplit, List.get?_map]
  cases h2 : (pySplitWs data).get? 2 with
  | none => rfl
  | some t =>
    show some (pyLower (pyLower t), everyOther (((pySplitWs data).map pyLower).drop 4)) = _
    rw [← List.map_drop, everyOther_map]
    rfl

lemma noUpper_pyLower (s : String) : noUpper (pyLower s) = true := by
  unfold noUpper
  rw [List.all_eq_true]
  intro c hc
  rw [pyLower_data] at hc
  obtain ⟨c0, _, rfl⟩ := List.mem_map.1 hc
  have hne := pyLowerChar_not_upper c0
  simp only [Bool.not_eq_true', Bool.and_eq_false_iff, decide_eq_false_iff_not]
  by_cases h65 : 65 ≤ (pyLowerChar c0).toNat
  · exact Or.inr (fun h90 => hne ⟨h65, h90⟩)
  · exact Or.inl h65

lemma dispatch_storage (now : Int) (cmd : String) (args : List String)
    (st : SessionState) (r : SessionState × String)
    (h : RedisServer.dispatch now cmd args st = some r) :
    r.1.storage = st.storage ∨
    ∃ k v, args.get? 0 = some k ∧ args.get? 1 = some v ∧
      r.1.storage = dictSet st.storage k v := by
  unfold RedisServer.dispatch at h
  by_cases hping : cmd = "ping"
  · rw [if_pos hping] at h
    unfold RedisServer.ping at h
    injection h with h2
    exact Or.inl (by rw [← h2])
  rw [if_neg hping] at h
  by_cases hecho : cmd = "echo"
  · rw [if_pos hecho] at h
    unfold RedisServer.echo at h
    cases h0 : args.get? 0 with
    | none => rw [h0] at h; exact absurd h (by simp)
    | some m =>
      rw [h0] at h
      injection h with h2
      exact Or.inl (by rw [← h2])
  rw [if_neg hecho] at h
  by_cases hset : cmd = "set"
  · rw [if_pos hset] at h
    unfold RedisServer.set at h
    cases h0 : args.get? 0 with
    | none => rw [h0] at h; exact absurd h (by simp)
    | some k =>
      cases h1 : args.get? 1 with
      | none => rw [h0, h1] at h; exact absurd h (by simp)
      | some v =>
        rw [h0, h1] at h
        refine Or.inr ⟨k, v, rfl, rfl, ?_⟩
        rcases he : (if args.length > 2 then
            (if args.get? 2 = some "px" then
              (match args.get? 3 with
                | none => none
                | some t =>
                  match pyInt t with
                  | none => none
                  | some n => some (some n))
              else some none)
            else some none : Option (Option Int)) with _ | e
        · rw [he] at h
          exact absurd h (by simp)
        · rw [he] at h
          cases e with
          | none =>
            injection h with h2
            rw [← h2]
          | some e0 =>
            injection h with h2
            rw [← h2]
  rw [if_neg hset] at h
  by_cases hget : cmd = "get"
  · rw [if_pos hget] at h
    unfold RedisServer.get at h
    cases h0 : args.get? 0 with
    | none => rw [h0] at h; exact absurd h (by simp)
    | some k =>
      rw [h0] at h
      injection h with h2
      exact Or.inl (by rw [← h2])
  rw [if_neg hget] at h
  by_cases hconfig : cmd = "config"
  · rw [if_pos hconfig] at h
    unfold RedisServer.config at h
    cases h0 : args.get? 0 with
    | none => rw [h0] at h; exact absurd h (by simp)
    | some sub =>
      rw [h0] at h
      replace h : (if sub = "get" then
          (match args.get? 1 with
            | none => none
            | some p => some (st, RedisServer.config_get st p))
        else if sub = "set" then
          (match args.get? 1, args.get? 2 with
            | some p, some v => some (RedisServer.config_set st p v)
            | _, _ => none)
        else some (st, "-ERR unknown subcommand\r\n")) = some r := h
      by_cases hsub1 : sub = "get"
      · rw [if_pos hsub1] at h
        cases h1 : args.get? 1 with
        | none => rw [h1] at h; exact absurd h (by simp)
        | some p =>
          rw [h1] at h
          injection h with h2
          exact Or.inl (by rw [← h2])
      · rw [if_neg hsub1] at h
        by_cases hsub2 : sub = "set"
        · rw [if_pos hsub2] at h
          cases h1 : args.get? 1 with
          | none =>
            rw [h1] at h
            cases h2 : args.get? 2 with
            | none => rw [h2] at h; exact absurd h (by simp)
            | some v0 => rw [h2] at h; exact absurd h (by simp)
          | some p =>
            cases h2 : args.get? 2 with
            | none => rw [h1, h2] at h; exact absurd h (by simp)
            | some v0 =>
              rw [h1, h2] at h
              injection h with h3
              refine Or.inl ?_
              rw [← h3]
              rfl
        · rw [if_neg hsub2] at h
          injection h with h2
          exact Or.inl (by rw [← h2])
  rw [if_neg hconfig] at h
  unfold RedisServer.handle_unknown at h
  injection h with h2
  exact Or.inl (by rw [← h2])

/-- Claim C10: `run` lowercases the entire received frame
(`data.decode().lower()`) before parsing, not just the command name:
(1) decoding the lowered frame yields the lowered command and the
lowered arguments of the original frame; (2) a lowered string never
contains an ASCII uppercase character; (3) hence every value `SET`
stores keeps `storage` free of uppercase values (the invariant is
preserved by every successfully processed frame). -/
theorem C10_whole_frame_lowercased :
    (∀ data : String,
        RedisServer.parse_command (pyLower data) =
          (RedisServer.parse_command data).map
            (fun pr => (pyLower pr.1, pr.2.map pyLower))) ∧
    (∀ s : String, noUpper (pyLower s) = true) ∧
    (∀ (now : Int) (data : String) (st st2 : SessionState) (out : String),
        (∀ p ∈ st.storage, noUpper p.2 = true) →
        RedisServer.processFrame now data st = some (st2, out) →
        ∀ p ∈ st2.storage, noUpper p.2 = true) := by
  refine ⟨parse_lower_commute, noUpper_pyLower, ?_⟩
  intro now data st st2 out hinv hproc
  unfold RedisServer.processFrame RedisServer.handle_command at hproc
  cases hp : RedisServer.parse_command (pyLower data) with
  | none => rw [hp] at hproc; exact absurd hproc (by simp)
  | some pr =>
    obtain ⟨cmd, args⟩ := pr
    rw [hp] at hproc
    have hargs : ∀ a ∈ args, noUpper a = true := by
      have hcomm := parse_lower_commute data
      rw [hp] at hcomm
      cases hpd : RedisServer.parse_command data with
      | none => rw [hpd] at hcomm; exact absurd hcomm (by simp)
      | some pr0 =>
        rw [hpd] at hcomm
        have hargs_eq : args = pr0.2.map pyLower :=
          congrArg Prod.snd (Option.some.inj hcomm)
        intro a ha
        rw [hargs_eq] at ha
        obtain ⟨a0, _, rfl⟩ := List.mem_map.1 ha
        exact noUpper_pyLower a0
    rcases dispatch_storage now cmd args st (st2, out) hproc with
      hsame | ⟨k, v, _, hv, hnew⟩
    · have hsame2 : st2.storage = st.storage := hsame
      intro p hp2
      exact hinv p (hsame2 ▸ hp2)
    · have hnew2 : st2.storage = dictSet st.storage k v := hnew
      intro p hp2
      rw [hnew2] at hp2
      rcases mem_dictSet _ _ _ _ hp2 with rfl | hmem
      · exact hargs v (List.get?_mem hv)
      · exact hinv p hmem

/-- Claim C10, witnessed on `SET K VB` (uppercase frame): the stored pair
is `("k", "vb")`, whose value has no uppercase character. -/
theorem C10_witness : noUpper (("k", "vb") : String × String).2 = true :=
  C10_whole_frame_lowercased.2.2 0 "*3\r\n$3\r\nSET\r\n$1\r\nK\r\n$2\r\nVB\r\n"
    (RedisServer.init none none)
    ⟨[("k", "vb")], [("dir", none), ("dbfilename", none)], []⟩ "+OK\r\n"
    (by simp [RedisServer.init]) (by decide) ("k", "vb") (by simp)
